import Mathlib

/-!
Shallow embedding of the coordinate core of the mpdaf repository
(lib/mpdaf/obj/coords.py and lib/mpdaf/obj/objs.py).

The spectral coordinate system (`WaveCoord`) is modelled over ℚ: the
underlying pywcs transform for a LINEAR 1D axis is the affine map
`world = crval + cdelt * (pix + 1 - crpix)` on zero-based pixel indexes,
and unit objects are modelled by their linear scale factor, so that a
conversion `(x * unit).to(self.unit).value` becomes `x * unit / self.unit`.
-/

namespace Mpdaf

/-- Truncation toward zero, the semantics of numpy `astype(int)`. -/
def truncQ (q : ℚ) : ℤ := if 0 ≤ q then ⌊q⌋ else ⌈q⌉

/-- State of a `WaveCoord` object (coords.py): reference pixel (1-based),
step, reference value, unit scale, axis type and optional declared length. -/
structure WaveCoord where
  crpix : ℚ
  cdelt : ℚ
  unit : ℚ
  ctype : String
  crval : ℚ
  shape : Option ℤ
  deriving DecidableEq, Repr

/-- `WaveCoord.coord` on a single pixel: the pywcs `wcs_pix2world` affine
map for a 1D LINEAR axis with origin 0. -/
def WaveCoord.coord (w : WaveCoord) (pixel : ℚ) : ℚ :=
  w.crval + w.cdelt * (pixel + 1 - w.crpix)

/-- `WaveCoord.pixel` with `nearest=False`: the pywcs `wcs_world2pix`
affine map for a 1D LINEAR axis with origin 0. -/
def WaveCoord.pixel (w : WaveCoord) (lbda : ℚ) : ℚ :=
  (lbda - w.crval) / w.cdelt + w.crpix - 1

/-- `WaveCoord.pixel` with `nearest=True`: `(pix + 0.5).astype(int)`,
then `np.maximum(pix, 0)`, then `np.minimum(pix, shape - 1)` when the
shape is declared. -/
def WaveCoord.pixelNearest (w : WaveCoord) (lbda : ℚ) : ℤ :=
  let p := truncQ (w.pixel lbda + 1/2)
  let p1 := max p 0
  match w.shape with
  | some n => min p1 (n - 1)
  | none => p1

/-- `WaveCoord.__getitem__` for an integer index (coords.py lines
1365-1377): a non-negative index wraps `coord(item)` in a shape-1
`WaveCoord` with `crpix=1, cdelt=0`; a negative index needs a declared
shape and uses `coord(shape + item)`. -/
def WaveCoord.getitemInt (w : WaveCoord) (i : ℤ) : Except String WaveCoord :=
  if 0 ≤ i then
    .ok ⟨1, 0, w.unit, w.ctype, w.coord (i : ℚ), some 1⟩
  else
    match w.shape with
    | none => .error "wavelength coordinates without dimension"
    | some n => .ok ⟨1, 0, w.unit, w.ctype, w.coord ((n : ℚ) + (i : ℚ)), some 1⟩

/-- `WaveCoord.resample` (coords.py lines 1411-1453).  `step` and `start`
are first converted to the stored unit; a missing `start` defaults to
`coord(0) - cdelt/2 + step/2`; the new length is
`ceil((shape * cdelt - start + old_start) / step)`.  A missing shape makes
the length computation fail (TypeError in the source). -/
def WaveCoord.resample (w : WaveCoord) (step : ℚ) (start : Option ℚ)
    (unit : Option ℚ) : Except String WaveCoord :=
  let step := match unit with
    | some un => step * un / w.unit
    | none => step
  let start := match unit, start with
    | some un, some s => some (s * un / w.unit)
    | _, s => s
  let cdelt := w.cdelt
  let start := match start with
    | some s => s
    | none => w.coord 0 - cdelt / 2 + step / 2
  let oldStart := w.coord 0
  match w.shape with
  | none => .error "unsupported operand type for NoneType"
  | some n => .ok ⟨1, step, w.unit, w.ctype, start,
      some ⌈((n : ℚ) * cdelt - start + oldStart) / step⌉⟩

/-- `WaveCoord.rebin` (coords.py lines 1455-1484), modelled functionally:
the step is scaled by the factor, the reference pixel is recentered as
`(crpix * old - old/2 + new/2) / new`, and the shape is divided by the
factor (Python 2 floor division of ints, hence `Int.fdiv`). -/
def WaveCoord.rebin (w : WaveCoord) (factor : ℤ) : WaveCoord :=
  let oldCdelt := w.cdelt
  let cdelt := w.cdelt * (factor : ℚ)
  let crpix := (w.crpix * oldCdelt - oldCdelt / 2 + cdelt / 2) / cdelt
  { w with cdelt := cdelt, crpix := crpix,
           shape := w.shape.map (fun n => Int.fdiv n factor) }

theorem wavePixelCoord (w : WaveCoord) (q : ℚ) (hc : w.cdelt ≠ 0) :
    w.pixel (w.coord q) = q := by
  unfold WaveCoord.pixel WaveCoord.coord
  field_simp

/-- C2: for every `WaveCoord` with a declared shape and every integer
`i` with `0 ≤ i < shape`, `pixel(coord(i), nearest=True) = i`. -/
theorem waveRoundTrip (w : WaveCoord) (n i : ℤ) (hs : w.shape = some n)
    (hc : w.cdelt ≠ 0) (h0 : 0 ≤ i) (h1 : i < n) :
    w.pixelNearest (w.coord (i : ℚ)) = i := by
  have hpix : w.pixel (w.coord (i : ℚ)) = (i : ℚ) := wavePixelCoord w _ hc
  have htr : truncQ ((i : ℚ) + 1/2) = i := by
    unfold truncQ
    rw [if_pos (by positivity)]
    rw [Int.floor_eq_iff]
    constructor
    · linarith
    · linarith
  simp only [WaveCoord.pixelNearest, hpix, hs, htr]
  omega

/-- A concrete spectral coordinate system: crval 0, step 1, unit nm,
shape 10 (as in the repository tests). -/
def waveW : WaveCoord := ⟨1, 1, 10, "LINEAR", 0, some 10⟩

/-- Witness for C2 at a concrete coordinate system and pixel. -/
theorem waveRoundTrip_w :
    (waveW.shape = some 10 ∧ waveW.cdelt ≠ 0 ∧ (0 : ℤ) ≤ 3 ∧ (3 : ℤ) < 10) ∧
    waveW.pixelNearest (waveW.coord (3 : ℚ)) = 3 :=
  ⟨⟨rfl, by decide, by decide, by decide⟩,
   waveRoundTrip waveW 10 3 rfl (by decide) (by decide) (by decide)⟩

/-- C5: integer indexing of a `WaveCoord`: a non-negative index returns
(wrapped in a shape-1 coordinate object) the coordinate value at that
pixel; a negative index counts from the end, requiring a declared shape
and failing when the shape is undeclared. -/
theorem waveGetitemIntSpec (w : WaveCoord) (i : ℤ) :
    (0 ≤ i → ∃ r, w.getitemInt i = .ok r ∧
      r.coord 0 = w.coord (i : ℚ) ∧ r.shape = some 1) ∧
    (i < 0 → w.shape = none → ∃ e, w.getitemInt i = .error e) ∧
    (∀ n, i < 0 → w.shape = some n → ∃ r, w.getitemInt i = .ok r ∧
      r.coord 0 = w.coord ((n : ℚ) + (i : ℚ)) ∧ r.shape = some 1) := by
  unfold WaveCoord.getitemInt
  refine ⟨fun h => ?_, fun h hn => ?_, fun n h hn => ?_⟩
  · rw [if_pos h]
    exact ⟨_, rfl, by simp [WaveCoord.coord], rfl⟩
  · rw [if_neg (by omega), hn]
    exact ⟨_, rfl⟩
  · rw [if_neg (by omega), hn]
    exact ⟨_, rfl, by simp [WaveCoord.coord], rfl⟩

/-- Witness for C5: non-negative indexing at a concrete system. -/
theorem waveGetitemIntSpec_w :
    ∃ r, waveW.getitemInt 4 = .ok r ∧
      r.coord (0 : ℚ) = waveW.coord (((4 : ℤ) : ℚ)) ∧ r.shape = some 1 :=
  (waveGetitemIntSpec waveW 4).1 (by decide)

/-- C6: for every spectral system with a declared length, `resample`
with explicit start and unit gives the step and start converted into the
stored unit, and length `ceil((shape * cdelt - start + old_start) / step)`
computed from the converted values. -/
theorem waveResampleSpec (w : WaveCoord) (n : ℤ) (step start un : ℚ)
    (hs : w.shape = some n) :
    ∃ r, w.resample step (some start) (some un) = .ok r ∧
      r.cdelt = step * un / w.unit ∧
      r.coord 0 = start * un / w.unit ∧
      r.shape = some ⌈((n : ℚ) * w.cdelt - start * un / w.unit + w.coord 0) /
        (step * un / w.unit)⌉ := by
  unfold WaveCoord.resample
  rw [hs]
  exact ⟨_, rfl, rfl, by simp [WaveCoord.coord], rfl⟩

/-- Witness for C6: the spec example
`WaveCoord(crval=0, step=1 nm, shape=10).resample(2.5, 20, angstrom)`
yields step 0.25 nm, start 2.0 nm and shape 32. -/
theorem waveResampleSpec_w :
    ∃ r, waveW.resample (5/2) (some 20) (some 1) = .ok r ∧
      r.cdelt = 1/4 ∧ r.coord 0 = 2 ∧ r.shape = some 32 := by
  obtain ⟨r, h1, h2, h3, h4⟩ := waveResampleSpec waveW 10 (5/2) 20 1 rfl
  refine ⟨r, h1, ?_, ?_, ?_⟩
  · rw [h2]; norm_num [waveW]
  · rw [h3]; norm_num [waveW]
  · rw [h4]; norm_num [waveW, WaveCoord.coord]

/-- C7: rebinning the shape-10, step-1, start-0 spectral system by the
integer factor 2 gives step 2, start 0.5, shape 5, and coordinate 4.5 at
the new pixel 2. -/
theorem waveRebinExample :
    (waveW.rebin 2).cdelt = 2 ∧ (waveW.rebin 2).coord 0 = 1/2 ∧
    (waveW.rebin 2).shape = some 5 ∧ (waveW.rebin 2).coord 2 = 9/2 := by
  refine ⟨?_, ?_, ?_, ?_⟩
  · norm_num [waveW, WaveCoord.rebin]
  · norm_num [waveW, WaveCoord.rebin, WaveCoord.coord]
  · simp only [waveW, WaveCoord.rebin, Option.map_some]
    decide
  · norm_num [waveW, WaveCoord.rebin, WaveCoord.coord]

/-!
The spatial `WCS` object is modelled over ℝ.  The underlying pywcs
transform for the linear/tangent-plane case with a CD matrix is
`world = crval + CD * (pix + 1 - crpix)` on zero-based pixel indexes, and
`wcs_world2pix` is its inverse.  Points are (y, x) pairs in array order
and world positions are (dec, ra) pairs, as in `pix2sky`/`sky2pix`.
-/

noncomputable section

/-- State of a `WCS` object (coords.py): reference pixel in 1-based FITS
(x, y) order, reference world value, the 2x2 CD matrix, unit scale, and
the stored array extents. -/
structure Wcs where
  crpix1 : ℝ
  crpix2 : ℝ
  crval1 : ℝ
  crval2 : ℝ
  cd11 : ℝ
  cd12 : ℝ
  cd21 : ℝ
  cd22 : ℝ
  unit : ℝ
  naxis1 : ℤ
  naxis2 : ℤ

/-- Determinant of the CD matrix; the transform is non-degenerate iff it
is nonzero. -/
def Wcs.det (w : Wcs) : ℝ := w.cd11 * w.cd22 - w.cd12 * w.cd21

/-- `WCS.pix2sky` on a single (y, x) pixel pair, returning (dec, ra):
the pywcs `wcs_pix2world` linear transform with origin 0, followed by an
optional unit conversion of the output. -/
def Wcs.pix2sky (w : Wcs) (p : ℝ × ℝ) (unit : Option ℝ) : ℝ × ℝ :=
  let dx := p.2 + 1 - w.crpix1
  let dy := p.1 + 1 - w.crpix2
  let ra := w.crval1 + w.cd11 * dx + w.cd12 * dy
  let dec := w.crval2 + w.cd21 * dx + w.cd22 * dy
  match unit with
  | some un => (dec * w.unit / un, ra * w.unit / un)
  | none => (dec, ra)

/-- `WCS.sky2pix` (without `nearest`) on a single (dec, ra) pair,
returning (y, x): an optional unit conversion of the input, then the
pywcs `wcs_world2pix` inverse linear transform with origin 0. -/
def Wcs.sky2pix (w : Wcs) (x : ℝ × ℝ) (unit : Option ℝ) : ℝ × ℝ :=
  let dec := match unit with
    | some un => x.1 * un / w.unit
    | none => x.1
  let ra := match unit with
    | some un => x.2 * un / w.unit
    | none => x.2
  let du := ra - w.crval1
  let dv := dec - w.crval2
  let px := (w.cd22 * du - w.cd12 * dv) / w.det
  let py := (w.cd11 * dv - w.cd21 * du) / w.det
  (py + w.crpix2 - 1, px + w.crpix1 - 1)

/-- C1: for every `WCS` with a non-singular CD matrix and every in-range
(y, x) pixel pair, `sky2pix (pix2sky p) = p`. -/
theorem wcsRoundTrip (w : Wcs) (p : ℝ × ℝ) (hdet : w.det ≠ 0)
    (h1 : 0 ≤ p.1) (h2 : p.1 ≤ (w.naxis2 : ℝ) - 1)
    (h3 : 0 ≤ p.2) (h4 : p.2 ≤ (w.naxis1 : ℝ) - 1) :
    w.sky2pix (w.pix2sky p none) none = p := by
  obtain ⟨py, px⟩ := p
  have hd : w.cd11 * w.cd22 - w.cd12 * w.cd21 ≠ 0 := hdet
  simp only [Wcs.sky2pix, Wcs.pix2sky, Wcs.det, Prod.mk.injEq]
  constructor
  · field_simp
    ring
  · field_simp
    ring

/-- A concrete non-degenerate spatial coordinate system with extents
naxis1 = 5, naxis2 = 6. -/
def wcsW : Wcs := ⟨1, 1, 0, 0, 1, 0, 0, 1, 1, 5, 6⟩

/-- Witness for C1 at a concrete system and in-range pixel (1, 2). -/
theorem wcsRoundTrip_w :
    (wcsW.det ≠ 0 ∧ (0 : ℝ) ≤ 1 ∧ (1 : ℝ) ≤ (wcsW.naxis2 : ℝ) - 1 ∧
      (0 : ℝ) ≤ 2 ∧ (2 : ℝ) ≤ (wcsW.naxis1 : ℝ) - 1) ∧
    wcsW.sky2pix (wcsW.pix2sky ((1 : ℝ), (2 : ℝ)) none) none = (1, 2) := by
  have hdet : wcsW.det ≠ 0 := by norm_num [Wcs.det, wcsW]
  refine ⟨⟨hdet, by norm_num, by norm_num [wcsW], by norm_num,
    by norm_num [wcsW]⟩, ?_⟩
  exact wcsRoundTrip wcsW (1, 2) hdet (by norm_num) (by norm_num [wcsW])
    (by norm_num) (by norm_num [wcsW])

/-- An index expression for one axis of `WCS.__getitem__`: either a
python slice object (start, stop, step, each optional) or a single
integer index. -/
inductive SliceItem where
  | sliceArg (start stop stp : Option ℤ) : SliceItem
  | idx (i : ℤ) : SliceItem

/-- `if v > hi then hi else v`, the one-sided clamp used on slice
bounds. -/
def clampHi (v hi : ℤ) : ℤ := if v > hi then hi else v

/-- The X-axis start bound of `WCS.__getitem__`: default 0, negative
values are offset by `naxis1`, and the result is clamped above at
`naxis1` (coords.py lines 610-617). -/
def sliceStartX (w : Wcs) (s : Option ℤ) : ℤ :=
  match s with
  | none => 0
  | some v => clampHi (if v < 0 then w.naxis1 + v else v) w.naxis1

/-- The X-axis stop bound of `WCS.__getitem__`: default `naxis1`,
negative values are offset by `naxis1`, and the result is clamped above
at `naxis1` (coords.py lines 622-629). -/
def sliceStopX (w : Wcs) (s : Option ℤ) : ℤ :=
  match s with
  | none => w.naxis1
  | some v => clampHi (if v < 0 then w.naxis1 + v else v) w.naxis1

/-- The Y-axis start bound of `WCS.__getitem__` (coords.py lines
653-660), same pattern as the X axis with `naxis2`. -/
def sliceStartY (w : Wcs) (s : Option ℤ) : ℤ :=
  match s with
  | none => 0
  | some v => clampHi (if v < 0 then w.naxis2 + v else v) w.naxis2

/-- The Y-axis stop bound of `WCS.__getitem__` (coords.py lines
665-672).  In the source the upper clamp is nested inside the
`if jmax < 0` branch, so a non-negative stop larger than `naxis2` is NOT
clamped, unlike the X axis. -/
def sliceStopY (w : Wcs) (s : Option ℤ) : ℤ :=
  match s with
  | none => w.naxis2
  | some v => if v < 0 then clampHi (w.naxis2 + v) w.naxis2 else v

/-- `WCS.__getitem__` with a 2D (row, col) item (coords.py lines
594-715).  The X-axis bounds and stride check run first; in the Y-axis
block the source checks `item[1].step` again (not `item[0].step`), so a
strided row slice is accepted whenever the column item is a slice of
unit stride, and a row slice paired with an integer column index hits an
attribute error.  The result shifts the reference pixel by the slice
offsets and stores the slice lengths as the new extents. -/
def Wcs.getitem (w : Wcs) (row col : SliceItem) : Except String Wcs :=
  let xres : Except String (ℤ × ℤ) :=
    match col with
    | .sliceArg s e st =>
        if st ≠ none ∧ st ≠ some 1 then .error "Index steps are not supported"
        else .ok (sliceStartX w s, sliceStopX w e)
    | .idx i => .ok (i, i + 1)
  match xres with
  | .error e => .error e
  | .ok (imin, imax) =>
    let yres : Except String (ℤ × ℤ) :=
      match row with
      | .sliceArg s e _ =>
          match col with
          | .idx _ => .error "AttributeError: int object has no attribute step"
          | .sliceArg _ _ cst =>
              if cst ≠ none ∧ cst ≠ some 1 then
                .error "Index steps are not supported"
              else .ok (sliceStartY w s, sliceStopY w e)
      | .idx j => .ok (j, j + 1)
    match yres with
    | .error e => .error e
    | .ok (jmin, jmax) =>
        .ok { w with crpix1 := w.crpix1 - (imin : ℝ),
                     crpix2 := w.crpix2 - (jmin : ℝ),
                     naxis1 := imax - imin, naxis2 := jmax - jmin }

/-- `WCS.get_start`: the world coordinates of pixel (0, 0). -/
def Wcs.get_start (w : Wcs) (unit : Option ℝ) : ℝ × ℝ :=
  w.pix2sky (0, 0) unit

/-- C3 (code bug): slicing `wcsW` (extents (6,5)) with rows `0:2` and
cols `1:4` does give extents (2,3) and a start equal to the original
world coordinate of pixel (0,1); but a row stop beyond `naxis2` is not
clamped to `[0, naxis]`: rows `0:100` yields extent 100, not 6. -/
theorem wcsGetitemClampBug :
    (∃ r, wcsW.getitem (.sliceArg (some 0) (some 2) none)
        (.sliceArg (some 1) (some 4) none) = .ok r ∧
      r.naxis2 = 2 ∧ r.naxis1 = 3 ∧
      r.get_start none = wcsW.pix2sky (0, 1) none) ∧
    (∃ r, wcsW.getitem (.sliceArg (some 0) (some 100) none)
        (.sliceArg none none none) = .ok r ∧ r.naxis2 = 100) := by
  constructor
  · refine ⟨_, rfl, by norm_num [wcsW, sliceStartY, sliceStopY, clampHi],
      by norm_num [wcsW, sliceStartX, sliceStopX, clampHi], ?_⟩
    norm_num [Wcs.get_start, Wcs.pix2sky, wcsW, sliceStartX,
      sliceStartY, sliceStopX, sliceStopY, clampHi]
  · exact ⟨_, rfl, by norm_num [wcsW, sliceStartY, sliceStopY, clampHi]⟩

/-- C4 (code bug): a strided row slice combined with an unstrided column
slice is accepted by `WCS.__getitem__` instead of failing: the stride
check in the Y-axis block re-checks the column item. -/
theorem wcsStridedRowAccepted :
    ∃ r, wcsW.getitem (.sliceArg (some 0) (some 2) (some 2))
      (.sliceArg (some 1) (some 4) none) = .ok r ∧
      r.naxis2 = 2 ∧ r.naxis1 = 3 :=
  ⟨_, rfl, by norm_num [wcsW, sliceStartY, sliceStopY, clampHi],
   by norm_num [wcsW, sliceStartX, sliceStopX, clampHi]⟩

/-- Two-argument arctangent, the model of `np.arctan2 y x`. -/
def arctan2 (y x : ℝ) : ℝ :=
  if 0 < x then Real.arctan (y / x)
  else if x < 0 then
    if 0 ≤ y then Real.arctan (y / x) + Real.pi
    else Real.arctan (y / x) - Real.pi
  else if 0 < y then Real.pi / 2
  else if y < 0 then -(Real.pi / 2)
  else 0

/-- `WCS.get_step`: the (dy, dx) per-axis steps are the row norms of the
CD matrix, `np.sqrt(np.sum(cd ** 2, axis=1))[::-1]`, with an optional
unit conversion. -/
def Wcs.get_step (w : Wcs) (unit : Option ℝ) : ℝ × ℝ :=
  let dx := Real.sqrt (w.cd11 ^ 2 + w.cd12 ^ 2)
  let dy := Real.sqrt (w.cd21 ^ 2 + w.cd22 ^ 2)
  match unit with
  | some un => (dy * w.unit / un, dx * w.unit / un)
  | none => (dy, dx)

/-- `WCS.get_rot` with its default degree unit:
`arctan2(cd[1,0], cd[1,1])` converted from radians to degrees. -/
def Wcs.get_rot (w : Wcs) : ℝ :=
  arctan2 w.cd21 w.cd22 * (180 / Real.pi)

/-- `WCS.isEqual` (coords.py lines 540-571): extents equal, and
`np.allclose(..., atol=1E-3, rtol=0)` on the world position of pixel
(0,0), on the per-axis steps, and on the rotation angle, with the
quantities of `other` converted to the unit of `self`. -/
def Wcs.isEqual (a b : Wcs) : Prop :=
  let cdelt1 := a.get_step none
  let cdelt2 := b.get_step (some a.unit)
  let x1 := a.pix2sky (0, 0) none
  let x2 := b.pix2sky (0, 0) (some a.unit)
  a.naxis1 = b.naxis1 ∧ a.naxis2 = b.naxis2 ∧
  |x1.1 - x2.1| ≤ 1/1000 ∧ |x1.2 - x2.2| ≤ 1/1000 ∧
  |cdelt1.1 - cdelt2.1| ≤ 1/1000 ∧ |cdelt1.2 - cdelt2.2| ≤ 1/1000 ∧
  |a.get_rot - b.get_rot| ≤ 1/1000

/-- C8: `isEqual` holds exactly when the stored extents match and the
world position of pixel (0,0), the per-axis steps, and the rotation
angle agree within 1e-3 absolute tolerance in the unit of the receiver;
in particular two systems of different extents are never equal. -/
theorem wcsIsEqualSpec (a b : Wcs) :
    (a.isEqual b ↔
      (a.naxis1 = b.naxis1 ∧ a.naxis2 = b.naxis2 ∧
       |(a.pix2sky (0, 0) none).1 - (b.pix2sky (0, 0) (some a.unit)).1| ≤ 1/1000 ∧
       |(a.pix2sky (0, 0) none).2 - (b.pix2sky (0, 0) (some a.unit)).2| ≤ 1/1000 ∧
       |(a.get_step none).1 - (b.get_step (some a.unit)).1| ≤ 1/1000 ∧
       |(a.get_step none).2 - (b.get_step (some a.unit)).2| ≤ 1/1000 ∧
       |a.get_rot - b.get_rot| ≤ 1/1000)) ∧
    (a.naxis1 ≠ b.naxis1 ∨ a.naxis2 ≠ b.naxis2 → ¬ a.isEqual b) := by
  constructor
  · exact Iff.rfl
  · rintro (h | h) he
    · exact h he.1
    · exact h he.2.1

/-- A system identical to `wcsW` except for its extents. -/
def wcsV : Wcs := ⟨1, 1, 0, 0, 1, 0, 0, 1, 1, 4, 6⟩

/-- Witness for C8: two systems of identical geometry but different
extents are not equal. -/
theorem wcsIsEqualSpec_w : ¬ wcsW.isEqual wcsV :=
  (wcsIsEqualSpec wcsW wcsV).2 (Or.inl (by norm_num [wcsW, wcsV]))

/-!
The `bounding_box` routine of objs.py.  Array indexes are computed from
real half-extents with numpy `astype(int)` (truncation toward zero) and
`np.clip`. -/

/-- Truncation toward zero on ℝ, the semantics of numpy `astype(int)`. -/
def truncR (x : ℝ) : ℤ := if 0 ≤ x then ⌊x⌋ else ⌈x⌉

/-- `np.clip v lo hi = min (max v lo) hi`. -/
def clip (v lo hi : ℤ) : ℤ := min (max v lo) hi

/-- The tail of `bounding_box` (objs.py lines 176-186): divide the
half-extents by the pixel steps, truncate `center ± w` to ints, clip
into `[0, shape - 1]`, and return inclusive-to-exclusive ranges. -/
def bbRanges (center : ℝ × ℝ) (shape : ℤ × ℤ) (step : ℝ × ℝ)
    (ymax xmax : ℝ) : (ℤ × ℤ) × (ℤ × ℤ) :=
  let wy := ymax / step.1
  let wx := xmax / step.2
  let imin := clip (truncR (center.1 - wy)) 0 (shape.1 - 1)
  let imax := clip (truncR (center.1 + wy)) 0 (shape.1 - 1)
  let jmin := clip (truncR (center.2 - wx)) 0 (shape.2 - 1)
  let jmax := clip (truncR (center.2 + wx)) 0 (shape.2 - 1)
  ((imin, imax + 1), (jmin, jmax + 1))

/-- `bounding_box` (objs.py lines 72-186).  `center` is (y, x), `radii`
is (rx, ry) as unpacked by the source, `shape` is (ny, nx) and `step` is
(stepY, stepX).  The rectangle case uses corner distances; the ellipse
case evaluates the rotated parametric ellipse at the closed-form
`arctan2` angles that maximize each axis extent. -/
def bounding_box (form : String) (center : ℝ × ℝ) (radii : ℝ × ℝ)
    (posangle : ℝ) (shape : ℤ × ℤ) (step : ℝ × ℝ) :
    Except String ((ℤ × ℤ) × (ℤ × ℤ)) :=
  let rx := radii.1
  let ry := radii.2
  let pa := posangle * Real.pi / 180
  let sinPa := Real.sin pa
  let cosPa := Real.cos pa
  if form = "rectangle" then
    .ok (bbRanges center shape step
      (|rx * sinPa| + |ry * cosPa|) (|rx * cosPa| + |ry * sinPa|))
  else if form = "ellipse" then
    let tx := arctan2 (-ry * sinPa) (rx * cosPa)
    let ty := arctan2 (ry * cosPa) (rx * sinPa)
    .ok (bbRanges center shape step
      (|rx * Real.cos ty * sinPa + ry * Real.sin ty * cosPa|)
      (|rx * Real.cos tx * cosPa - ry * Real.sin tx * sinPa|))
  else .error "The form argument should be rectangle or ellipse"

theorem arctan2_zero_one : arctan2 0 1 = 0 := by
  unfold arctan2
  rw [if_pos (by norm_num)]
  simp [Real.arctan_zero]

theorem arctan2_one_zero : arctan2 1 0 = Real.pi / 2 := by
  unfold arctan2
  rw [if_neg (by norm_num), if_neg (by norm_num), if_pos (by norm_num)]

theorem truncR_one : truncR (1 : ℝ) = 1 := by
  unfold truncR
  rw [if_pos (by norm_num)]
  exact Int.floor_one

theorem truncR_three : truncR (3 : ℝ) = 3 := by
  unfold truncR
  rw [if_pos (by norm_num)]
  norm_num

/-- C9: the bounding box of the unrotated unit ellipse centered at
(2,2) in a (5,5) array with unit steps is the half-open range [1,4) on
both axes. -/
theorem boundingBoxEllipseExample :
    bounding_box "ellipse" (2, 2) (1, 1) 0 (5, 5) (1, 1) =
      .ok ((1, 4), (1, 4)) := by
  have h0 : (0 : ℝ) * Real.pi / 180 = 0 := by ring
  have hb : bounding_box "ellipse" (2, 2) (1, 1) 0 (5, 5) (1, 1) =
      .ok (bbRanges (2, 2) (5, 5) (1, 1) 1 1) := by
    simp only [bounding_box, h0, Real.sin_zero, Real.cos_zero]
    rw [if_pos trivial]
    norm_num [arctan2_zero_one, arctan2_one_zero, Real.sin_pi_div_two,
      Real.cos_pi_div_two]
  rw [hb]
  have t1 : truncR ((2 : ℝ) - 1 / 1) = 1 := by norm_num [truncR_one]
  have t3 : truncR ((2 : ℝ) + 1 / 1) = 3 := by norm_num [truncR_three]
  simp only [bbRanges, t1, t3]
  norm_num [clip]

theorem truncR_mono {a b : ℝ} (h : a ≤ b) : truncR a ≤ truncR b := by
  unfold truncR
  by_cases ha : 0 ≤ a
  · rw [if_pos ha, if_pos (le_trans ha h)]
    exact Int.floor_le_floor h
  · rw [if_neg ha]
    by_cases hb : 0 ≤ b
    · rw [if_pos hb]
      have hc : ⌈a⌉ ≤ 0 := Int.ceil_le.mpr (by exact_mod_cast le_of_not_le ha)
      have hf : (0 : ℤ) ≤ ⌊b⌋ := Int.floor_nonneg.mpr hb
      omega
    · rw [if_neg hb]
      exact Int.ceil_le_ceil h

theorem clip_nonneg (v hi : ℤ) (h : 0 ≤ hi) : 0 ≤ clip v 0 hi :=
  le_min (le_max_right v 0) h

theorem clip_le_hi (v lo hi : ℤ) : clip v lo hi ≤ hi := min_le_right _ _

theorem clip_mono_left (v v2 lo hi : ℤ) (h : v ≤ v2) :
    clip v lo hi ≤ clip v2 lo hi :=
  min_le_min (max_le_max h le_rfl) le_rfl

theorem bbRanges_bounds (cy cx : ℝ) (ny nx : ℤ) (sy sx : ℝ)
    (ymax xmax : ℝ) (hy : 0 ≤ ymax) (hx : 0 ≤ xmax)
    (hsy : 0 < sy) (hsx : 0 < sx) (hny : 1 ≤ ny) (hnx : 1 ≤ nx) :
    0 ≤ (bbRanges (cy, cx) (ny, nx) (sy, sx) ymax xmax).1.1 ∧
    (bbRanges (cy, cx) (ny, nx) (sy, sx) ymax xmax).1.1 <
      (bbRanges (cy, cx) (ny, nx) (sy, sx) ymax xmax).1.2 ∧
    (bbRanges (cy, cx) (ny, nx) (sy, sx) ymax xmax).1.2 ≤ ny ∧
    0 ≤ (bbRanges (cy, cx) (ny, nx) (sy, sx) ymax xmax).2.1 ∧
    (bbRanges (cy, cx) (ny, nx) (sy, sx) ymax xmax).2.1 <
      (bbRanges (cy, cx) (ny, nx) (sy, sx) ymax xmax).2.2 ∧
    (bbRanges (cy, cx) (ny, nx) (sy, sx) ymax xmax).2.2 ≤ nx := by
  have hwy : 0 ≤ ymax / sy := div_nonneg hy hsy.le
  have hwx : 0 ≤ xmax / sx := div_nonneg hx hsx.le
  have hmy := clip_mono_left (truncR (cy - ymax / sy))
    (truncR (cy + ymax / sy)) 0 (ny - 1)
    (truncR_mono (by linarith))
  have hmx := clip_mono_left (truncR (cx - xmax / sx))
    (truncR (cx + xmax / sx)) 0 (nx - 1)
    (truncR_mono (by linarith))
  have h1 := clip_nonneg (truncR (cy - ymax / sy)) (ny - 1) (by omega)
  have h2 := clip_le_hi (truncR (cy + ymax / sy)) 0 (ny - 1)
  have h3 := clip_nonneg (truncR (cx - xmax / sx)) (nx - 1) (by omega)
  have h4 := clip_le_hi (truncR (cx + xmax / sx)) 0 (nx - 1)
  simp only [bbRanges]
  refine ⟨h1, by omega, by omega, h3, by omega, by omega⟩

theorem bbOk (cy cx : ℝ) (ny nx : ℤ) (sy sx Y X : ℝ)
    (hy : 0 ≤ Y) (hx : 0 ≤ X) (hsy : 0 < sy) (hsx : 0 < sx)
    (hny : 1 ≤ ny) (hnx : 1 ≤ nx) :
    ∃ rr cr : ℤ × ℤ,
      (Except.ok (bbRanges (cy, cx) (ny, nx) (sy, sx) Y X) :
        Except String ((ℤ × ℤ) × (ℤ × ℤ))) = .ok (rr, cr) ∧
      0 ≤ rr.1 ∧ rr.1 < rr.2 ∧ rr.2 ≤ ny ∧
      0 ≤ cr.1 ∧ cr.1 < cr.2 ∧ cr.2 ≤ nx := by
  obtain ⟨b1, b2, b3, b4, b5, b6⟩ :=
    bbRanges_bounds cy cx ny nx sy sx Y X hy hx hsy hsx hny hnx
  exact ⟨_, _, rfl, b1, b2, b3, b4, b5, b6⟩

/-- C10: for either valid shape kind, any center, non-negative radii,
any position angle, positive extents and positive steps, `bounding_box`
returns ranges that are non-empty and within bounds on both axes. -/
theorem boundingBoxInBounds (form : String) (center radii : ℝ × ℝ)
    (posangle : ℝ) (ny nx : ℤ) (sy sx : ℝ)
    (hform : form = "rectangle" ∨ form = "ellipse")
    (_hrx : 0 ≤ radii.1) (_hry : 0 ≤ radii.2)
    (hny : 1 ≤ ny) (hnx : 1 ≤ nx) (hsy : 0 < sy) (hsx : 0 < sx) :
    ∃ rr cr : ℤ × ℤ,
      bounding_box form center radii posangle (ny, nx) (sy, sx) =
        .ok (rr, cr) ∧
      0 ≤ rr.1 ∧ rr.1 < rr.2 ∧ rr.2 ≤ ny ∧
      0 ≤ cr.1 ∧ cr.1 < cr.2 ∧ cr.2 ≤ nx := by
  obtain ⟨cy, cx⟩ := center
  rcases hform with h | h <;> subst h
  · simp only [bounding_box]
    rw [if_pos trivial]
    refine bbOk cy cx ny nx sy sx _ _ ?_ ?_ hsy hsx hny hnx <;> positivity
  · simp only [bounding_box]
    rw [if_pos trivial]
    refine bbOk cy cx ny nx sy sx _ _ ?_ ?_ hsy hsx hny hnx <;> positivity

/-- Witness for C10: a rectangle entirely outside the (5,5) array still
gives a non-empty in-bounds selection. -/
theorem boundingBoxInBounds_w :
    ∃ rr cr : ℤ × ℤ,
      bounding_box "rectangle" (10, 10) (1, 1) 0 (5, 5) (1, 1) =
        .ok (rr, cr) ∧
      0 ≤ rr.1 ∧ rr.1 < rr.2 ∧ rr.2 ≤ 5 ∧
      0 ≤ cr.1 ∧ cr.1 < cr.2 ∧ cr.2 ≤ 5 :=
  boundingBoxInBounds "rectangle" (10, 10) (1, 1) 0 5 5 1 1 (Or.inl rfl)
    (by norm_num) (by norm_num) (by norm_num) (by norm_num) (by norm_num)
    (by norm_num)

end

end Mpdaf
